import Mathlib

/-! MetalRenderer: the vertex interface declared in `Renderer/AAPLShaderTypes.h`

The header declares one enumeration (`AAPLVertexInputIndex`) and one record
(`AAPLVertex`).  This development embeds both declarations, the C rules that
give a record and an array their layout, and the byte-level meaning of storing
and loading the record's members, and proves the layout contract of the
specification about them.
-/

set_option autoImplicit false

/-! ## The enumeration -/

/-- The enumeration `AAPLVertexInputIndex` of the header: its only enumerator
is `AAPLVertexInputIndexVertices`. -/
inductive AAPLVertexInputIndex where
  | AAPLVertexInputIndexVertices
deriving DecidableEq

/-- The integer value of an enumerator, as written in the header
(`AAPLVertexInputIndexVertices = 0`). -/
def AAPLVertexInputIndex.value : AAPLVertexInputIndex → Int
  | .AAPLVertexInputIndexVertices => 0

/-- All enumerators of `AAPLVertexInputIndex`, in declaration order. -/
def AAPLVertexInputIndex.enumerators : List AAPLVertexInputIndex :=
  [.AAPLVertexInputIndexVertices]

/-! ## Object types and the members of `AAPLVertex` -/

/-- What the layout rules need to know of a C object type: its size and its
required alignment, in bytes. -/
structure CType where
  size : Nat
  align : Nat
deriving DecidableEq

/-- A vector type whose lanes are floats: the number of lanes and the size of
one lane, on top of the size and alignment of the whole vector. -/
structure VectorType extends CType where
  lanes : Nat
  laneSize : Nat
deriving DecidableEq

/-- The value of a `simd_float2`: two lanes, each the bit pattern of a 32-bit
float. -/
structure simd_float2 where
  x : Nat
  y : Nat
deriving DecidableEq

/-- The value of a `simd_float4`: four lanes, each the bit pattern of a 32-bit
float. -/
structure simd_float4 where
  x : Nat
  y : Nat
  z : Nat
  w : Nat
deriving DecidableEq

/-- Modelled from the spec: `simd_float2` comes from the platform header
`<simd/simd.h>`, which is not part of the sources; the layout table of the
specification gives the 2-float vector a size of 8 bytes and an alignment
of 8. -/
def simd_float2.type : VectorType :=
  { size := 8, align := 8, lanes := 2, laneSize := 4 }

/-- Modelled from the spec: `simd_float4` comes from the platform header
`<simd/simd.h>`, which is not part of the sources; the layout table of the
specification gives the 4-float vector a size of 16 bytes and an alignment
of 16. -/
def simd_float4.type : VectorType :=
  { size := 16, align := 16, lanes := 4, laneSize := 4 }

/-- One member of a record declaration: its name and its type. -/
structure Member where
  name : String
  type : VectorType
deriving DecidableEq

/-- The value of an `AAPLVertex`, member by member as the header declares it. -/
structure AAPLVertex where
  position : simd_float2
  color : simd_float4
deriving DecidableEq

/-- The member declarations of `AAPLVertex`, in the order of the header:
`simd_float2 position; simd_float4 color;`. -/
def AAPLVertex.members : List Member :=
  [⟨"position", simd_float2.type⟩, ⟨"color", simd_float4.type⟩]

/-! ## The C layout rules -/

/-- The least multiple of `a` that is at least `n`. -/
def alignUp (n a : Nat) : Nat := (n + a - 1) / a * a

/-- The offsets of objects of the types `ts` placed one after the other from
byte `cur` on, each at the first offset that satisfies its alignment. -/
def offsetsFrom (cur : Nat) : List CType → List Nat
  | [] => []
  | t :: ts => alignUp cur t.align :: offsetsFrom (alignUp cur t.align + t.size) ts

/-- The first byte after the last of the objects placed by `offsetsFrom`. -/
def endFrom (cur : Nat) : List CType → Nat
  | [] => cur
  | t :: ts => endFrom (alignUp cur t.align + t.size) ts

/-- The types of the members of a record, in order. -/
def memberTypes (ms : List Member) : List CType :=
  ms.map fun m => m.type.toCType

/-- The offset of every member of a record, in order. -/
def memberOffsets (ms : List Member) : List Nat :=
  offsetsFrom 0 (memberTypes ms)

/-- The alignment of a record: the strictest alignment among its members. -/
def structAlign (ms : List Member) : Nat :=
  (memberTypes ms).foldl (fun a t => max a t.align) 1

/-- The size of a record: the end of its last member, rounded up to the
alignment of the record. -/
def structSize (ms : List Member) : Nat :=
  alignUp (endFrom 0 (memberTypes ms)) (structAlign ms)

/-- The offset of the member called `name`, when the record has one
(`offsetof`). -/
def offsetOf (ms : List Member) (name : String) : Option Nat :=
  ((ms.map fun m => m.name).zip (memberOffsets ms)).lookup name

/-- The bytes `[lo, hi)` each member of a record occupies, in order. -/
def memberRanges (ms : List Member) : List (Nat × Nat) :=
  (memberOffsets ms).zip (memberTypes ms) |>.map fun p => (p.1, p.1 + p.2.size)

/-- Whether byte `b` of a record belongs to one of its members. -/
def isMemberByte (ms : List Member) (b : Nat) : Bool :=
  (memberRanges ms).any fun r => decide (r.1 ≤ b) && decide (b < r.2)

/-- The padding bytes of a record: the bytes below its size that belong to no
member. -/
def paddingBytes (ms : List Member) : List Nat :=
  (List.range (structSize ms)).filter fun b => !isMemberByte ms b

/-- The number of bytes of trailing padding of a record. -/
def trailingPadding (ms : List Member) : Nat :=
  structSize ms - endFrom 0 (memberTypes ms)

/-- The record type `AAPLVertex` as an object type: `sizeof(AAPLVertex)` and
its alignment under the layout rules. -/
def AAPLVertex.type : CType :=
  { size := structSize AAPLVertex.members, align := structAlign AAPLVertex.members }

/-- The value of `sizeof(AAPLVertex)`. -/
def AAPLVertex.sizeof : Nat := AAPLVertex.type.size

/-- The value of `offsetof(AAPLVertex, position)`. -/
def AAPLVertex.positionOffset : Nat := (offsetOf AAPLVertex.members "position").getD 0

/-- The value of `offsetof(AAPLVertex, color)`. -/
def AAPLVertex.colorOffset : Nat := (offsetOf AAPLVertex.members "color").getD 0

/-! ## Arrays of records -/

/-- The offsets of the `n` elements of an array of `t`, each placed at the
first offset after the previous element that satisfies the alignment of `t`. -/
def arrayOffsets (t : CType) (n : Nat) : List Nat :=
  offsetsFrom 0 (List.replicate n t)

/-- The number of bytes an array of `n` elements of `t` occupies. -/
def arraySize (t : CType) (n : Nat) : Nat :=
  endFrom 0 (List.replicate n t)

/-- The offset of element `i` of an array of `AAPLVertex`, as the indexing
expression `&vertices[i]` computes it. -/
def AAPLVertex.elementOffset (i : Nat) : Nat := i * AAPLVertex.sizeof

/-! ## Memory: storing and loading members -/

/-- A byte buffer: the bytes of a region of memory, by offset. -/
abbrev Buffer := List Nat

/-- Store the byte `b` at offset `a`.  A store at an offset outside the buffer
leaves the buffer as it is. -/
def storeByte (m : Buffer) (a b : Nat) : Buffer := m.set a (b % 256)

/-- Load the byte at offset `a`; an offset outside the buffer reads as 0. -/
def loadByte (m : Buffer) (a : Nat) : Nat := m.getD a 0

/-- Store the 32-bit pattern `w` of a float in the four bytes from offset `a`
on, least significant byte first. -/
def storeFloat (m : Buffer) (a w : Nat) : Buffer :=
  storeByte (storeByte (storeByte (storeByte m a w) (a + 1) (w / 256))
    (a + 2) (w / 65536)) (a + 3) (w / 16777216)

/-- Load the 32-bit pattern of the float in the four bytes from offset `a`. -/
def loadFloat (m : Buffer) (a : Nat) : Nat :=
  loadByte m a + 256 * loadByte m (a + 1) + 65536 * loadByte m (a + 2)
    + 16777216 * loadByte m (a + 3)

/-- Store a `simd_float2` at offset `a`: lane `k` goes to `a + k * laneSize`. -/
def simd_float2.store (m : Buffer) (a : Nat) (v : simd_float2) : Buffer :=
  storeFloat (storeFloat m a v.x) (a + simd_float2.type.laneSize) v.y

/-- Load the `simd_float2` at offset `a`. -/
def simd_float2.load (m : Buffer) (a : Nat) : simd_float2 :=
  { x := loadFloat m a, y := loadFloat m (a + simd_float2.type.laneSize) }

/-- Store a `simd_float4` at offset `a`: lane `k` goes to `a + k * laneSize`. -/
def simd_float4.store (m : Buffer) (a : Nat) (v : simd_float4) : Buffer :=
  storeFloat (storeFloat (storeFloat (storeFloat m a v.x)
    (a + simd_float4.type.laneSize) v.y)
    (a + 2 * simd_float4.type.laneSize) v.z)
    (a + 3 * simd_float4.type.laneSize) v.w

/-- Load the `simd_float4` at offset `a`. -/
def simd_float4.load (m : Buffer) (a : Nat) : simd_float4 :=
  { x := loadFloat m a
    y := loadFloat m (a + simd_float4.type.laneSize)
    z := loadFloat m (a + 2 * simd_float4.type.laneSize)
    w := loadFloat m (a + 3 * simd_float4.type.laneSize) }

/-- The assignment `vertices[i].position = p`. -/
def AAPLVertex.storePosition (m : Buffer) (i : Nat) (p : simd_float2) : Buffer :=
  simd_float2.store m (AAPLVertex.elementOffset i + AAPLVertex.positionOffset) p

/-- The value of `vertices[i].position`. -/
def AAPLVertex.loadPosition (m : Buffer) (i : Nat) : simd_float2 :=
  simd_float2.load m (AAPLVertex.elementOffset i + AAPLVertex.positionOffset)

/-- The assignment `vertices[i].color = c`. -/
def AAPLVertex.storeColor (m : Buffer) (i : Nat) (c : simd_float4) : Buffer :=
  simd_float4.store m (AAPLVertex.elementOffset i + AAPLVertex.colorOffset) c

/-- The value of `vertices[i].color`. -/
def AAPLVertex.loadColor (m : Buffer) (i : Nat) : simd_float4 :=
  simd_float4.load m (AAPLVertex.elementOffset i + AAPLVertex.colorOffset)

/-- The assignment `vertices[i] = v`, member by member. -/
def AAPLVertex.store (m : Buffer) (i : Nat) (v : AAPLVertex) : Buffer :=
  AAPLVertex.storeColor (AAPLVertex.storePosition m i v.position) i v.color

/-- The value of `vertices[i]`. -/
def AAPLVertex.load (m : Buffer) (i : Nat) : AAPLVertex :=
  { position := AAPLVertex.loadPosition m i, color := AAPLVertex.loadColor m i }

/-- Write the records `vs` into the elements `k`, `k + 1`, ... of a buffer. -/
def writeVertices (m : Buffer) (k : Nat) : List AAPLVertex → Buffer
  | [] => m
  | v :: vs => writeVertices (AAPLVertex.store m k v) (k + 1) vs

/-- Read the `n` records in the elements `k`, `k + 1`, ... of a buffer. -/
def readVertices (m : Buffer) (k : Nat) : Nat → List AAPLVertex
  | 0 => []
  | n + 1 => AAPLVertex.load m k :: readVertices m (k + 1) n

/-- Each lane of a `simd_float2` is a 32-bit pattern. -/
def simd_float2.IsBits (v : simd_float2) : Prop :=
  v.x < 2 ^ 32 ∧ v.y < 2 ^ 32

/-- Each lane of a `simd_float4` is a 32-bit pattern. -/
def simd_float4.IsBits (v : simd_float4) : Prop :=
  v.x < 2 ^ 32 ∧ v.y < 2 ^ 32 ∧ v.z < 2 ^ 32 ∧ v.w < 2 ^ 32

/-- Every component of a record is a 32-bit pattern. -/
def AAPLVertex.IsBits (v : AAPLVertex) : Prop :=
  v.position.IsBits ∧ v.color.IsBits

instance simd_float2.decIsBits (v : simd_float2) : Decidable v.IsBits := by
  unfold simd_float2.IsBits; infer_instance

instance simd_float4.decIsBits (v : simd_float4) : Decidable v.IsBits := by
  unfold simd_float4.IsBits; infer_instance

instance AAPLVertex.decIsBits (v : AAPLVertex) : Decidable v.IsBits := by
  unfold AAPLVertex.IsBits; infer_instance



/-! ## Stores and loads: bytes, floats, vectors, records -/

theorem loadByte_storeByte (m : Buffer) (a b c : Nat) :
    loadByte (storeByte m a b) c
      = if c = a ∧ a < m.length then b % 256 else loadByte m c := by
  unfold loadByte storeByte
  simp only [List.getD_eq_getElem?_getD, List.getElem?_set]
  by_cases h : a = c
  · subst h
    by_cases h2 : a < m.length
    · simp [h2]
    · simp [h2]
      rw [List.getElem?_eq_none (by omega)]
      rfl
  · have : ¬ c = a := fun e => h e.symm
    simp [h, this]

theorem length_storeByte (m : Buffer) (a b : Nat) :
    (storeByte m a b).length = m.length := by
  simp [storeByte]

theorem length_storeFloat (m : Buffer) (a w : Nat) :
    (storeFloat m a w).length = m.length := by
  simp [storeFloat, length_storeByte]

theorem loadByte_storeFloat_outside (m : Buffer) (a w c : Nat)
    (h : c < a ∨ a + 4 ≤ c) :
    loadByte (storeFloat m a w) c = loadByte m c := by
  have h0 : ¬ c = a := by omega
  have h1 : ¬ c = a + 1 := by omega
  have h2 : ¬ c = a + 2 := by omega
  have h3 : ¬ c = a + 3 := by omega
  simp [storeFloat, loadByte_storeByte, h0, h1, h2, h3]

theorem loadFloat_storeFloat_disjoint (m : Buffer) (a w b : Nat)
    (h : b + 4 ≤ a ∨ a + 4 ≤ b) :
    loadFloat (storeFloat m a w) b = loadFloat m b := by
  unfold loadFloat
  rw [loadByte_storeFloat_outside m a w b (by omega),
    loadByte_storeFloat_outside m a w (b + 1) (by omega),
    loadByte_storeFloat_outside m a w (b + 2) (by omega),
    loadByte_storeFloat_outside m a w (b + 3) (by omega)]

theorem loadFloat_storeFloat_same (m : Buffer) (a w : Nat)
    (h : a + 4 ≤ m.length) (hw : w < 2 ^ 32) :
    loadFloat (storeFloat m a w) a = w := by
  have h0 : a < m.length := by omega
  have h1 : a + 1 < m.length := by omega
  have h2 : a + 2 < m.length := by omega
  have h3 : a + 3 < m.length := by omega
  simp [loadFloat, storeFloat, loadByte_storeByte, length_storeByte, h0, h1, h2, h3]
  omega

theorem AAPLVertex.sizeof_eq : AAPLVertex.sizeof = 32 := by decide

theorem AAPLVertex.positionOffset_eq : AAPLVertex.positionOffset = 0 := by decide

theorem AAPLVertex.colorOffset_eq : AAPLVertex.colorOffset = 16 := by decide

theorem simd_float2.float2_laneSize_eq : simd_float2.type.laneSize = 4 := rfl

theorem simd_float4.float4_laneSize_eq : simd_float4.type.laneSize = 4 := rfl

theorem simd_float2.float2_length_store (m : Buffer) (a : Nat) (v : simd_float2) :
    (simd_float2.store m a v).length = m.length := by
  simp [simd_float2.store, length_storeFloat]

theorem simd_float4.float4_length_store (m : Buffer) (a : Nat) (v : simd_float4) :
    (simd_float4.store m a v).length = m.length := by
  simp [simd_float4.store, length_storeFloat]

theorem simd_float2.float2_loadFloat_store_disjoint (m : Buffer) (a b : Nat) (v : simd_float2)
    (h : b + 4 ≤ a ∨ a + 8 ≤ b) :
    loadFloat (simd_float2.store m a v) b = loadFloat m b := by
  unfold simd_float2.store
  rw [simd_float2.float2_laneSize_eq, loadFloat_storeFloat_disjoint _ _ _ _ (by omega),
    loadFloat_storeFloat_disjoint _ _ _ _ (by omega)]

theorem simd_float4.float4_loadFloat_store_disjoint (m : Buffer) (a b : Nat) (v : simd_float4)
    (h : b + 4 ≤ a ∨ a + 16 ≤ b) :
    loadFloat (simd_float4.store m a v) b = loadFloat m b := by
  unfold simd_float4.store
  rw [simd_float4.float4_laneSize_eq, loadFloat_storeFloat_disjoint _ _ _ _ (by omega),
    loadFloat_storeFloat_disjoint _ _ _ _ (by omega),
    loadFloat_storeFloat_disjoint _ _ _ _ (by omega),
    loadFloat_storeFloat_disjoint _ _ _ _ (by omega)]

theorem simd_float2.float2_load_store_same (m : Buffer) (a : Nat) (v : simd_float2)
    (h : a + 8 ≤ m.length) (hv : v.IsBits) :
    simd_float2.load (simd_float2.store m a v) a = v := by
  obtain ⟨hx, hy⟩ := hv
  unfold simd_float2.load simd_float2.store
  rw [simd_float2.float2_laneSize_eq,
    loadFloat_storeFloat_same _ _ _ (by rw [length_storeFloat]; omega) hy,
    loadFloat_storeFloat_disjoint _ _ _ _ (by omega),
    loadFloat_storeFloat_same _ _ _ (by omega) hx]

theorem simd_float4.float4_load_store_same (m : Buffer) (a : Nat) (v : simd_float4)
    (h : a + 16 ≤ m.length) (hv : v.IsBits) :
    simd_float4.load (simd_float4.store m a v) a = v := by
  obtain ⟨hx, hy, hz, hw⟩ := hv
  unfold simd_float4.load simd_float4.store
  rw [simd_float4.float4_laneSize_eq,
    loadFloat_storeFloat_same _ (a + 3 * 4) _ (by simp only [length_storeFloat]; omega) hw,
    loadFloat_storeFloat_disjoint _ (a + 3 * 4) _ (a + 2 * 4) (by omega),
    loadFloat_storeFloat_same _ (a + 2 * 4) _ (by simp only [length_storeFloat]; omega) hz,
    loadFloat_storeFloat_disjoint _ (a + 3 * 4) _ (a + 4) (by omega),
    loadFloat_storeFloat_disjoint _ (a + 2 * 4) _ (a + 4) (by omega),
    loadFloat_storeFloat_same _ (a + 4) _ (by simp only [length_storeFloat]; omega) hy,
    loadFloat_storeFloat_disjoint _ (a + 3 * 4) _ a (by omega),
    loadFloat_storeFloat_disjoint _ (a + 2 * 4) _ a (by omega),
    loadFloat_storeFloat_disjoint _ (a + 4) _ a (by omega),
    loadFloat_storeFloat_same _ a _ (by omega) hx]

theorem simd_float2.float2_load_store2_disjoint (m : Buffer) (a b : Nat) (v : simd_float2)
    (h : b + 8 ≤ a ∨ a + 8 ≤ b) :
    simd_float2.load (simd_float2.store m a v) b = simd_float2.load m b := by
  unfold simd_float2.load
  rw [simd_float2.float2_laneSize_eq, simd_float2.float2_loadFloat_store_disjoint _ _ _ _ (by omega),
    simd_float2.float2_loadFloat_store_disjoint _ _ _ _ (by omega)]

theorem simd_float2.float2_load_store4_disjoint (m : Buffer) (a b : Nat) (v : simd_float4)
    (h : b + 8 ≤ a ∨ a + 16 ≤ b) :
    simd_float2.load (simd_float4.store m a v) b = simd_float2.load m b := by
  unfold simd_float2.load
  rw [simd_float2.float2_laneSize_eq, simd_float4.float4_loadFloat_store_disjoint _ _ _ _ (by omega),
    simd_float4.float4_loadFloat_store_disjoint _ _ _ _ (by omega)]

theorem simd_float4.float4_load_store2_disjoint (m : Buffer) (a b : Nat) (v : simd_float2)
    (h : b + 16 ≤ a ∨ a + 8 ≤ b) :
    simd_float4.load (simd_float2.store m a v) b = simd_float4.load m b := by
  unfold simd_float4.load
  rw [simd_float4.float4_laneSize_eq, simd_float2.float2_loadFloat_store_disjoint _ _ _ _ (by omega),
    simd_float2.float2_loadFloat_store_disjoint _ _ _ _ (by omega),
    simd_float2.float2_loadFloat_store_disjoint _ _ _ _ (by omega),
    simd_float2.float2_loadFloat_store_disjoint _ _ _ _ (by omega)]

theorem simd_float4.float4_load_store4_disjoint (m : Buffer) (a b : Nat) (v : simd_float4)
    (h : b + 16 ≤ a ∨ a + 16 ≤ b) :
    simd_float4.load (simd_float4.store m a v) b = simd_float4.load m b := by
  unfold simd_float4.load
  rw [simd_float4.float4_laneSize_eq, simd_float4.float4_loadFloat_store_disjoint _ _ _ _ (by omega),
    simd_float4.float4_loadFloat_store_disjoint _ _ _ _ (by omega),
    simd_float4.float4_loadFloat_store_disjoint _ _ _ _ (by omega),
    simd_float4.float4_loadFloat_store_disjoint _ _ _ _ (by omega)]

theorem AAPLVertex.elementOffset_eq (i : Nat) : AAPLVertex.elementOffset i = i * 32 := by
  rw [AAPLVertex.elementOffset, AAPLVertex.sizeof_eq]

theorem AAPLVertex.length_storePosition (m : Buffer) (i : Nat) (p : simd_float2) :
    (AAPLVertex.storePosition m i p).length = m.length := by
  simp [AAPLVertex.storePosition, simd_float2.float2_length_store]

theorem AAPLVertex.length_storeColor (m : Buffer) (i : Nat) (c : simd_float4) :
    (AAPLVertex.storeColor m i c).length = m.length := by
  simp [AAPLVertex.storeColor, simd_float4.float4_length_store]

theorem AAPLVertex.vertex_length_store (m : Buffer) (i : Nat) (v : AAPLVertex) :
    (AAPLVertex.store m i v).length = m.length := by
  simp [AAPLVertex.store, AAPLVertex.length_storeColor, AAPLVertex.length_storePosition]

theorem AAPLVertex.loadColor_storePosition (m : Buffer) (i j : Nat) (p : simd_float2) :
    AAPLVertex.loadColor (AAPLVertex.storePosition m i p) j = AAPLVertex.loadColor m j := by
  unfold AAPLVertex.loadColor AAPLVertex.storePosition
  simp only [AAPLVertex.elementOffset_eq, AAPLVertex.positionOffset_eq,
    AAPLVertex.colorOffset_eq]
  exact simd_float4.float4_load_store2_disjoint _ _ _ _ (by omega)

theorem AAPLVertex.loadPosition_storeColor (m : Buffer) (i j : Nat) (c : simd_float4) :
    AAPLVertex.loadPosition (AAPLVertex.storeColor m i c) j = AAPLVertex.loadPosition m j := by
  unfold AAPLVertex.loadPosition AAPLVertex.storeColor
  simp only [AAPLVertex.elementOffset_eq, AAPLVertex.positionOffset_eq,
    AAPLVertex.colorOffset_eq]
  exact simd_float2.float2_load_store4_disjoint _ _ _ _ (by omega)

theorem AAPLVertex.loadPosition_storePosition_ne (m : Buffer) (i j : Nat) (p : simd_float2)
    (h : j ≠ i) :
    AAPLVertex.loadPosition (AAPLVertex.storePosition m i p) j
      = AAPLVertex.loadPosition m j := by
  unfold AAPLVertex.loadPosition AAPLVertex.storePosition
  simp only [AAPLVertex.elementOffset_eq, AAPLVertex.positionOffset_eq]
  exact simd_float2.float2_load_store2_disjoint _ _ _ _ (by omega)

theorem AAPLVertex.loadColor_storeColor_ne (m : Buffer) (i j : Nat) (c : simd_float4)
    (h : j ≠ i) :
    AAPLVertex.loadColor (AAPLVertex.storeColor m i c) j = AAPLVertex.loadColor m j := by
  unfold AAPLVertex.loadColor AAPLVertex.storeColor
  simp only [AAPLVertex.elementOffset_eq, AAPLVertex.colorOffset_eq]
  exact simd_float4.float4_load_store4_disjoint _ _ _ _ (by omega)

theorem AAPLVertex.loadPosition_storePosition_same (m : Buffer) (i : Nat) (p : simd_float2)
    (h : (i + 1) * 32 ≤ m.length) (hp : p.IsBits) :
    AAPLVertex.loadPosition (AAPLVertex.storePosition m i p) i = p := by
  unfold AAPLVertex.loadPosition AAPLVertex.storePosition
  simp only [AAPLVertex.elementOffset_eq, AAPLVertex.positionOffset_eq]
  exact simd_float2.float2_load_store_same _ _ _ (by omega) hp

theorem AAPLVertex.loadColor_storeColor_same (m : Buffer) (i : Nat) (c : simd_float4)
    (h : (i + 1) * 32 ≤ m.length) (hc : c.IsBits) :
    AAPLVertex.loadColor (AAPLVertex.storeColor m i c) i = c := by
  unfold AAPLVertex.loadColor AAPLVertex.storeColor
  simp only [AAPLVertex.elementOffset_eq, AAPLVertex.colorOffset_eq]
  exact simd_float4.float4_load_store_same _ _ _ (by omega) hc

theorem AAPLVertex.vertex_load_store_same (m : Buffer) (i : Nat) (v : AAPLVertex)
    (h : (i + 1) * 32 ≤ m.length) (hv : v.IsBits) :
    AAPLVertex.load (AAPLVertex.store m i v) i = v := by
  obtain ⟨hp, hc⟩ := hv
  unfold AAPLVertex.load AAPLVertex.store
  rw [AAPLVertex.loadPosition_storeColor,
    AAPLVertex.loadPosition_storePosition_same m i _ h hp,
    AAPLVertex.loadColor_storeColor_same _ i _
      (by rw [AAPLVertex.length_storePosition]; exact h) hc]

theorem AAPLVertex.load_store_ne (m : Buffer) (i j : Nat) (v : AAPLVertex) (h : j ≠ i) :
    AAPLVertex.load (AAPLVertex.store m i v) j = AAPLVertex.load m j := by
  unfold AAPLVertex.load AAPLVertex.store
  rw [AAPLVertex.loadPosition_storeColor,
    AAPLVertex.loadPosition_storePosition_ne m i j _ h,
    AAPLVertex.loadColor_storeColor_ne _ i j _ h,
    AAPLVertex.loadColor_storePosition]

theorem length_writeVertices (vs : List AAPLVertex) (m : Buffer) (k : Nat) :
    (writeVertices m k vs).length = m.length := by
  induction vs generalizing m k with
  | nil => rfl
  | cons v vs ih => rw [writeVertices, ih, AAPLVertex.vertex_length_store]

theorem load_writeVertices_below (vs : List AAPLVertex) (m : Buffer) (k j : Nat)
    (h : j < k) :
    AAPLVertex.load (writeVertices m k vs) j = AAPLVertex.load m j := by
  induction vs generalizing m k with
  | nil => rfl
  | cons v vs ih =>
    rw [writeVertices, ih _ (k + 1) (by omega), AAPLVertex.load_store_ne m k j v (by omega)]

theorem readBack_of_written_from (vs : List AAPLVertex) (m : Buffer) (k : Nat)
    (hm : (k + vs.length) * 32 ≤ m.length) (hv : ∀ v ∈ vs, v.IsBits) :
    readVertices (writeVertices m k vs) k vs.length = vs := by
  induction vs generalizing m k with
  | nil => rfl
  | cons v vs ih =>
    simp only [List.length_cons] at hm
    rw [writeVertices, List.length_cons, readVertices,
      load_writeVertices_below vs _ (k + 1) k (by omega),
      AAPLVertex.vertex_load_store_same m k v (by omega) (hv v (List.mem_cons_self v vs)),
      ih _ (k + 1) (by rw [AAPLVertex.vertex_length_store]; omega)
        (fun u hu => hv u (List.mem_cons_of_mem v hu))]

/-! ## Arrays of `AAPLVertex` -/

theorem AAPLVertex.type_eq : AAPLVertex.type = { size := 32, align := 16 } := by decide

theorem alignUp_mul_32_16 (k : Nat) : alignUp (k * 32) 16 = k * 32 := by
  unfold alignUp
  omega

theorem offsetsFrom_replicate_vertex (n k : Nat) :
    offsetsFrom (k * 32) (List.replicate n AAPLVertex.type)
      = (List.range' k n).map fun i => i * 32 := by
  induction n generalizing k with
  | zero => rfl
  | succ n ih =>
    have step : k * 32 + 32 = (k + 1) * 32 := by omega
    rw [List.replicate_succ, offsetsFrom, AAPLVertex.type_eq]
    simp only [alignUp_mul_32_16, step]
    rw [← AAPLVertex.type_eq, ih (k + 1)]
    rfl

theorem endFrom_replicate_vertex (n k : Nat) :
    endFrom (k * 32) (List.replicate n AAPLVertex.type) = (k + n) * 32 := by
  induction n generalizing k with
  | zero => rfl
  | succ n ih =>
    have step : k * 32 + 32 = (k + 1) * 32 := by omega
    rw [List.replicate_succ, endFrom, AAPLVertex.type_eq]
    simp only [alignUp_mul_32_16, step]
    rw [← AAPLVertex.type_eq, ih (k + 1)]
    omega

/-! ## The claims of the specification -/

/-- Claim C1: the enumeration `AAPLVertexInputIndex` has exactly one member,
`AAPLVertexInputIndexVertices`, whose value is 0; so every value of the
enumeration is a non-negative integer and the slot of the vertex array is 0. -/
theorem AAPLVertexInputIndex.only_vertices_zero (e : AAPLVertexInputIndex) :
    AAPLVertexInputIndex.enumerators = [AAPLVertexInputIndex.AAPLVertexInputIndexVertices]
      ∧ e = AAPLVertexInputIndex.AAPLVertexInputIndexVertices
      ∧ e.value = 0
      ∧ 0 ≤ e.value
      ∧ AAPLVertexInputIndex.AAPLVertexInputIndexVertices.value = 0 := by
  cases e
  exact ⟨rfl, rfl, rfl, le_refl _, rfl⟩

/-- Claim C2: in the layout of `AAPLVertex` the offset of `position` is 0 and
the offset of `color` is the size of `position` (8) rounded up to the alignment
of the type of `color` (16), every offset being computed by the layout rules
from the sizes and alignments of the two vector types. -/
theorem AAPLVertex.member_offsets :
    offsetOf AAPLVertex.members "position" = some 0
      ∧ offsetOf AAPLVertex.members "color"
          = some (alignUp simd_float2.type.size simd_float4.type.align)
      ∧ simd_float2.type.size = 8
      ∧ simd_float4.type.align = 16
      ∧ memberOffsets AAPLVertex.members
          = [0, alignUp simd_float2.type.size simd_float4.type.align] := by
  decide

/-- Claim C3: the record `AAPLVertex` has exactly two members, `position` then
`color`; `position` is a vector of two 4-byte floats of size 8 and alignment 8,
`color` a vector of four 4-byte floats of size 16 and alignment 16; there is no
other member. -/
theorem AAPLVertex.members_exact :
    AAPLVertex.members.length = 2
      ∧ AAPLVertex.members.map (fun m => m.name) = ["position", "color"]
      ∧ AAPLVertex.members.map (fun m => (m.type.lanes, m.type.laneSize)) = [(2, 4), (4, 4)]
      ∧ AAPLVertex.members.map (fun m => (m.type.size, m.type.align)) = [(8, 8), (16, 16)]
      ∧ AAPLVertex.members = [⟨"position", simd_float2.type⟩, ⟨"color", simd_float4.type⟩]
      ∧ ∀ m ∈ AAPLVertex.members, m.name = "position" ∨ m.name = "color" := by
  decide

/-- Claim C4: round trip.  Writing any sequence of `AAPLVertex` records whose
components are 32-bit patterns into a byte buffer that has room for them,
through the layout of `AAPLVertex`, and reading the same number of records back
through the same layout gives the sequence written, bit for bit. -/
theorem readVertices_writeVertices (m : Buffer) (vs : List AAPLVertex)
    (hm : vs.length * AAPLVertex.sizeof ≤ m.length) (hv : ∀ v ∈ vs, v.IsBits) :
    readVertices (writeVertices m 0 vs) 0 vs.length = vs := by
  rw [AAPLVertex.sizeof_eq] at hm
  exact readBack_of_written_from vs m 0 (by omega) hv

/-- The round trip at the record of the specification's scenario:
`position = (0.0, 0.5)` (bit patterns `0x00000000`, `0x3F000000`) and
`color = (1.0, 0.0, 0.0, 1.0)` (`0x3F800000`, 0, 0, `0x3F800000`), written into
a buffer of one record, reads back as exactly these bit patterns. -/
theorem readVertices_writeVertices_witness :
    ([(⟨⟨0, 0x3F000000⟩, ⟨0x3F800000, 0, 0, 0x3F800000⟩⟩ : AAPLVertex)].length
          * AAPLVertex.sizeof ≤ (List.replicate 32 0 : Buffer).length
        ∧ ∀ v ∈ [(⟨⟨0, 0x3F000000⟩, ⟨0x3F800000, 0, 0, 0x3F800000⟩⟩ : AAPLVertex)],
            v.IsBits)
      ∧ readVertices (writeVertices (List.replicate 32 0)
          0 [⟨⟨0, 0x3F000000⟩, ⟨0x3F800000, 0, 0, 0x3F800000⟩⟩]) 0 1
          = [⟨⟨0, 0x3F000000⟩, ⟨0x3F800000, 0, 0, 0x3F800000⟩⟩] :=
  ⟨⟨by decide, by decide⟩,
    readVertices_writeVertices (List.replicate 32 0)
      [⟨⟨0, 0x3F000000⟩, ⟨0x3F800000, 0, 0, 0x3F800000⟩⟩] (by decide) (by decide)⟩

/-- Claim C5: an array of `n` records of `AAPLVertex` occupies
`n * sizeof(AAPLVertex)` bytes, element `i` starting at byte
`i * sizeof(AAPLVertex)`; `sizeof(AAPLVertex)` is a multiple of the alignment of
the record, so placing each element at the first aligned offset after the
previous one leaves no padding between elements; three records occupy
`3 * sizeof(AAPLVertex)` bytes. -/
theorem AAPLVertex.array_layout (n : Nat) :
    arraySize AAPLVertex.type n = n * AAPLVertex.sizeof
      ∧ arrayOffsets AAPLVertex.type n = (List.range n).map AAPLVertex.elementOffset
      ∧ arrayOffsets AAPLVertex.type n = (List.range n).map (fun i => i * AAPLVertex.sizeof)
      ∧ AAPLVertex.sizeof % AAPLVertex.type.align = 0
      ∧ arraySize AAPLVertex.type 3 = 3 * AAPLVertex.sizeof := by
  have hoff : arrayOffsets AAPLVertex.type n
      = (List.range n).map (fun i => i * AAPLVertex.sizeof) := by
    have h := offsetsFrom_replicate_vertex n 0
    rw [Nat.zero_mul] at h
    rw [arrayOffsets, h, AAPLVertex.sizeof_eq, List.range_eq_range']
  have hsize : arraySize AAPLVertex.type n = n * AAPLVertex.sizeof := by
    have h := endFrom_replicate_vertex n 0
    rw [Nat.zero_mul, Nat.zero_add] at h
    rw [arraySize, h, AAPLVertex.sizeof_eq]
  exact ⟨hsize, hoff, hoff, by decide, by decide⟩

/-- Claim C7: with `simd_float2` of size 8 and alignment 8 and `simd_float4` of
size 16 and alignment 16, `AAPLVertex` has alignment 16 and size 32; its 24
bytes of member data are not tightly packed: bytes 8 to 15 are padding between
`position` and `color`, there is no trailing padding, and the offset of `color`
is 16, not 8. -/
theorem AAPLVertex.size_and_padding :
    simd_float2.type.toCType = { size := 8, align := 8 }
      ∧ simd_float4.type.toCType = { size := 16, align := 16 }
      ∧ structAlign AAPLVertex.members = 16
      ∧ AAPLVertex.type.align = 16
      ∧ AAPLVertex.sizeof = 32
      ∧ ((memberTypes AAPLVertex.members).map fun t => t.size).sum = 24
      ∧ paddingBytes AAPLVertex.members = [8, 9, 10, 11, 12, 13, 14, 15]
      ∧ trailingPadding AAPLVertex.members = 0
      ∧ endFrom 0 (memberTypes AAPLVertex.members) = AAPLVertex.sizeof
      ∧ offsetOf AAPLVertex.members "color" = some 16
      ∧ offsetOf AAPLVertex.members "color" ≠ some 8 := by
  decide

/-- Claim C8: the byte ranges of the two members of `AAPLVertex` are disjoint
and lie below `sizeof(AAPLVertex)`; so in every buffer, storing a `position` in
element `i` changes neither the `color` of any element (that of `i` included)
nor the `position` of any other element, and storing a `color` in element `i`
changes neither the `position` of any element nor the `color` of any other
element. -/
theorem AAPLVertex.member_store_frame (m : Buffer) (i j : Nat)
    (p : simd_float2) (c : simd_float4) :
    memberRanges AAPLVertex.members = [(0, 8), (16, 32)]
      ∧ (∀ r ∈ memberRanges AAPLVertex.members, r.1 < r.2 ∧ r.2 ≤ AAPLVertex.sizeof)
      ∧ (∀ b, b < AAPLVertex.sizeof →
          ¬ (AAPLVertex.positionOffset ≤ b
              ∧ b < AAPLVertex.positionOffset + simd_float2.type.size
              ∧ AAPLVertex.colorOffset ≤ b
              ∧ b < AAPLVertex.colorOffset + simd_float4.type.size))
      ∧ AAPLVertex.loadColor (AAPLVertex.storePosition m i p) j = AAPLVertex.loadColor m j
      ∧ (j ≠ i → AAPLVertex.loadPosition (AAPLVertex.storePosition m i p) j
          = AAPLVertex.loadPosition m j)
      ∧ AAPLVertex.loadPosition (AAPLVertex.storeColor m i c) j = AAPLVertex.loadPosition m j
      ∧ (j ≠ i → AAPLVertex.loadColor (AAPLVertex.storeColor m i c) j
          = AAPLVertex.loadColor m j) := by
  refine ⟨by decide, by decide, ?_, AAPLVertex.loadColor_storePosition m i j p,
    AAPLVertex.loadPosition_storePosition_ne m i j p,
    AAPLVertex.loadPosition_storeColor m i j c,
    AAPLVertex.loadColor_storeColor_ne m i j c⟩
  intro b _
  rw [AAPLVertex.positionOffset_eq, AAPLVertex.colorOffset_eq]
  simp only [simd_float2.type, simd_float4.type]
  omega

/-- The frame property in a buffer of two records that holds `(0.0, 0.5)` and
`(1.0, 0.0, 0.0, 1.0)` in element 1: stores into element 0 leave element 1 as
it was, and each store into element 0 leaves the other member of element 0 as
it was. -/
theorem AAPLVertex.member_store_frame_witness :
    (1 : Nat) ≠ 0
      ∧ AAPLVertex.loadPosition (AAPLVertex.storePosition
          (AAPLVertex.store (List.replicate 64 0) 1
            ⟨⟨0, 0x3F000000⟩, ⟨0x3F800000, 0, 0, 0x3F800000⟩⟩) 0 ⟨0xBF800000, 0x3F800000⟩) 1
          = ⟨0, 0x3F000000⟩
      ∧ AAPLVertex.loadColor (AAPLVertex.storeColor
          (AAPLVertex.store (List.replicate 64 0) 1
            ⟨⟨0, 0x3F000000⟩, ⟨0x3F800000, 0, 0, 0x3F800000⟩⟩) 0
            ⟨0, 0x3F800000, 0, 0x3F800000⟩) 1
          = ⟨0x3F800000, 0, 0, 0x3F800000⟩ := by
  have h := AAPLVertex.member_store_frame
    (AAPLVertex.store (List.replicate 64 0) 1
      ⟨⟨0, 0x3F000000⟩, ⟨0x3F800000, 0, 0, 0x3F800000⟩⟩) 0 1
    ⟨0xBF800000, 0x3F800000⟩ ⟨0, 0x3F800000, 0, 0x3F800000⟩
  refine ⟨by decide, ?_, ?_⟩
  · rw [h.2.2.2.2.1 (by decide)]
    decide
  · rw [h.2.2.2.2.2.2 (by decide)]
    decide
